import Mathlib

/-!
Verification of the `scell` crate: a reference-counted shared cell `SCell<T>`
with two build-time strategies.

The checked strategy (src/checked.rs) stores `Rc<RefCell<T>>`: every `borrow` /
`borrow_mut` goes through `RefCell`'s dynamic borrow flag, which is exactly the
per-slot state machine Unborrowed / SharedRead(n) / Exclusive (a `RefCell`
read-borrow succeeds unless a mutable borrow is outstanding and increments the
reader count; a mutable borrow succeeds only from the unborrowed state; dropping
a `Ref` / `RefMut` undoes its transition).

The unchecked strategy (src/unchecked.rs) stores `Rc<UnsafeCell<T>>`: `borrow` /
`borrow_mut` just hand out the slot's memory with no tracking and no failure.

Embedding: a heap is a list of slots indexed by `Ptr := Nat`; an `SCell` handle
is the index of its slot, so `Rc::as_ptr` equality of two handles is equality of
indices.  Each slot carries the `Rc` strong count (`clone` increments it), the
value, and — in the checked strategy — the borrow state.  A Rust panic
(`RefCell` borrow failure) is `none`; trait methods of the generic parameter `T`
(`PartialEq::eq`, `PartialEq::ne`, `Ord::cmp`, `Hash::hash`, `Display::fmt`, …)
are function parameters of the embedded operations, since the source is generic
over any implementation of those traits.
-/

set_option autoImplicit false

/-- Pointer identity of a slot: the index of the slot in the heap. Two handles
alias the same slot exactly when their indices are equal, mirroring
`Rc::as_ptr` comparison in the source. -/
abbrev Ptr : Type := Nat

/-- Dynamic borrow state of one `RefCell` slot in the checked strategy:
unborrowed, `n` outstanding shared read borrows, or one exclusive write
borrow. -/
inductive BorrowState : Type where
  | Unborrowed : BorrowState
  | SharedRead : Nat → BorrowState
  | Exclusive : BorrowState
  deriving DecidableEq, Repr

/-- One heap slot of the checked strategy: the `Rc` strong count, the contained
value, and the `RefCell` borrow flag. -/
structure Slot (T : Type) where
  refs : Nat
  value : T
  state : BorrowState
  deriving DecidableEq, Repr

/-- Heap of the checked strategy: slots addressed by `Ptr`. -/
abbrev CheckedHeap (T : Type) : Type := List (Slot T)

/-- One heap slot of the unchecked strategy: the `Rc` strong count and the
contained value; no borrow tracking exists (`UnsafeCell`). -/
structure USlot (T : Type) where
  refs : Nat
  value : T
  deriving DecidableEq, Repr

/-- Heap of the unchecked strategy. -/
abbrev UncheckedHeap (T : Type) : Type := List (USlot T)

namespace Checked

variable {T : Type}

/-- Embeds `SCell::new` (checked.rs line 21): allocate a fresh slot holding `t`
with strong count 1 and no outstanding borrow; the new handle is its index. -/
def new (h : CheckedHeap T) (t : T) : CheckedHeap T × Ptr :=
  (h ++ [⟨1, t, BorrowState.Unborrowed⟩], h.length)

/-- Embeds the borrow-flag transition performed by `RefCell::borrow`, which
`SCell::borrow` (checked.rs line 28) calls: a read borrow succeeds unless a
write borrow is outstanding, incrementing the reader count; failure is a Rust
panic, embedded as `none`. -/
def acquireRead (h : CheckedHeap T) (p : Ptr) : Option (CheckedHeap T) :=
  match h[p]? with
  | none => none
  | some s =>
    match s.state with
    | BorrowState.Unborrowed => some (h.set p { s with state := BorrowState.SharedRead 1 })
    | BorrowState.SharedRead n => some (h.set p { s with state := BorrowState.SharedRead (n + 1) })
    | BorrowState.Exclusive => none

/-- Embeds the transition performed when a `Ref` (checked.rs line 14) is
dropped: the reader count decrements; the last reader returns the slot to the
unborrowed state. -/
def releaseRead (h : CheckedHeap T) (p : Ptr) : Option (CheckedHeap T) :=
  match h[p]? with
  | none => none
  | some s =>
    match s.state with
    | BorrowState.SharedRead 1 => some (h.set p { s with state := BorrowState.Unborrowed })
    | BorrowState.SharedRead (n + 2) => some (h.set p { s with state := BorrowState.SharedRead (n + 1) })
    | _ => none

/-- Embeds the borrow-flag transition performed by `RefCell::borrow_mut`, which
`SCell::borrow_mut` (checked.rs line 33) calls: a write borrow succeeds only
from the unborrowed state. -/
def acquireWrite (h : CheckedHeap T) (p : Ptr) : Option (CheckedHeap T) :=
  match h[p]? with
  | none => none
  | some s =>
    match s.state with
    | BorrowState.Unborrowed => some (h.set p { s with state := BorrowState.Exclusive })
    | _ => none

/-- Embeds the transition performed when a `RefMut` (checked.rs line 17) is
dropped: the slot returns to the unborrowed state. -/
def releaseWrite (h : CheckedHeap T) (p : Ptr) : Option (CheckedHeap T) :=
  match h[p]? with
  | none => none
  | some s =>
    match s.state with
    | BorrowState.Exclusive => some (h.set p { s with state := BorrowState.Unborrowed })
    | _ => none

/-- Reading through an outstanding view (`Deref` of `Ref` / `RefMut`,
checked.rs lines 52-59 and 156-163): yields the slot's value. -/
def readValue (h : CheckedHeap T) (p : Ptr) : Option T :=
  (h[p]?).map Slot.value

/-- Writing through an outstanding write view (`DerefMut` of `RefMut`,
checked.rs lines 165-170): replaces the slot's value. -/
def writeValue (h : CheckedHeap T) (p : Ptr) (t : T) : Option (CheckedHeap T) :=
  (h[p]?).map (fun s => h.set p { s with value := t })

/-- Embeds `Clone for SCell` (checked.rs lines 38-43): `Rc::clone` increments
the slot's strong count and yields a second handle to the same slot; the borrow
state is never consulted. -/
def clone (h : CheckedHeap T) (p : Ptr) : Option (CheckedHeap T × Ptr) :=
  (h[p]?).map (fun s => (h.set p { s with refs := s.refs + 1 }, p))

/-- A whole scoped read view: `SCell::borrow`, read the value through the
`Ref`, then the `Ref` goes out of scope and is dropped. -/
def readView (h : CheckedHeap T) (p : Ptr) : Option (T × CheckedHeap T) := do
  let h1 ← acquireRead h p
  let v ← readValue h1 p
  let h2 ← releaseRead h1 p
  pure (v, h2)

/-- A whole scoped write view: `SCell::borrow_mut`, store `t` through the
`RefMut`, then the `RefMut` goes out of scope and is dropped. -/
def writeView (h : CheckedHeap T) (p : Ptr) (t : T) : Option (CheckedHeap T) := do
  let h1 ← acquireWrite h p
  let h2 ← writeValue h1 p t
  releaseWrite h2 p

/-- Embeds `PartialEq::eq for SCell` (checked.rs lines 74-80): if the two
handles share a slot (`Rc::as_ptr` equality) the result is `true` with no
borrow taken; otherwise both slots are read-borrowed, the values are compared
with `T`'s `eq`, and both `Ref`s are dropped in reverse order. -/
def cellEq (eqT : T → T → Bool) (h : CheckedHeap T) (a b : Ptr) :
    Option (Bool × CheckedHeap T) :=
  if a = b then
    some (true, h)
  else do
    let h1 ← acquireRead h a
    let h2 ← acquireRead h1 b
    let va ← readValue h2 a
    let vb ← readValue h2 b
    let h3 ← releaseRead h2 b
    let h4 ← releaseRead h3 a
    pure (eqT va vb, h4)

/-- Embeds `PartialEq::ne for SCell` (checked.rs lines 83-89): same slot gives
`false` with no borrow; otherwise forwards to `T`'s `ne` through read views. -/
def cellNe (neT : T → T → Bool) (h : CheckedHeap T) (a b : Ptr) :
    Option (Bool × CheckedHeap T) :=
  if a = b then
    some (false, h)
  else do
    let h1 ← acquireRead h a
    let h2 ← acquireRead h1 b
    let va ← readValue h2 a
    let vb ← readValue h2 b
    let h3 ← releaseRead h2 b
    let h4 ← releaseRead h3 a
    pure (neT va vb, h4)

/-- Embeds `PartialOrd::partial_cmp for SCell` (checked.rs lines 98-104): same
slot gives `Some(Equal)` with no borrow; otherwise forwards to `T` through read
views. -/
def cellPcmp (pcmpT : T → T → Option Ordering) (h : CheckedHeap T) (a b : Ptr) :
    Option (Option Ordering × CheckedHeap T) :=
  if a = b then
    some (some Ordering.eq, h)
  else do
    let h1 ← acquireRead h a
    let h2 ← acquireRead h1 b
    let va ← readValue h2 a
    let vb ← readValue h2 b
    let h3 ← releaseRead h2 b
    let h4 ← releaseRead h3 a
    pure (pcmpT va vb, h4)

/-- Embeds `PartialOrd::lt for SCell` (checked.rs lines 107-113): same slot
gives `false` with no borrow; otherwise forwards to `T` through read views. -/
def cellLt (ltT : T → T → Bool) (h : CheckedHeap T) (a b : Ptr) :
    Option (Bool × CheckedHeap T) :=
  if a = b then
    some (false, h)
  else do
    let h1 ← acquireRead h a
    let h2 ← acquireRead h1 b
    let va ← readValue h2 a
    let vb ← readValue h2 b
    let h3 ← releaseRead h2 b
    let h4 ← releaseRead h3 a
    pure (ltT va vb, h4)

/-- Embeds `PartialOrd::le for SCell` (checked.rs lines 116-122): same slot
gives `true` with no borrow; otherwise forwards to `T` through read views. -/
def cellLe (leT : T → T → Bool) (h : CheckedHeap T) (a b : Ptr) :
    Option (Bool × CheckedHeap T) :=
  if a = b then
    some (true, h)
  else do
    let h1 ← acquireRead h a
    let h2 ← acquireRead h1 b
    let va ← readValue h2 a
    let vb ← readValue h2 b
    let h3 ← releaseRead h2 b
    let h4 ← releaseRead h3 a
    pure (leT va vb, h4)

/-- Embeds `PartialOrd::gt for SCell` (checked.rs lines 125-131): same slot
gives `false` with no borrow; otherwise forwards to `T` through read views. -/
def cellGt (gtT : T → T → Bool) (h : CheckedHeap T) (a b : Ptr) :
    Option (Bool × CheckedHeap T) :=
  if a = b then
    some (false, h)
  else do
    let h1 ← acquireRead h a
    let h2 ← acquireRead h1 b
    let va ← readValue h2 a
    let vb ← readValue h2 b
    let h3 ← releaseRead h2 b
    let h4 ← releaseRead h3 a
    pure (gtT va vb, h4)

/-- Embeds `PartialOrd::ge for SCell` (checked.rs lines 134-140): same slot
gives `true` with no borrow; otherwise forwards to `T` through read views. -/
def cellGe (geT : T → T → Bool) (h : CheckedHeap T) (a b : Ptr) :
    Option (Bool × CheckedHeap T) :=
  if a = b then
    some (true, h)
  else do
    let h1 ← acquireRead h a
    let h2 ← acquireRead h1 b
    let va ← readValue h2 a
    let vb ← readValue h2 b
    let h3 ← releaseRead h2 b
    let h4 ← releaseRead h3 a
    pure (geT va vb, h4)

/-- Embeds `Ord::cmp for SCell` (checked.rs lines 147-153): same slot gives
`Equal` with no borrow; otherwise forwards to `T`'s `cmp` through read
views. -/
def cellCmp (cmpT : T → T → Ordering) (h : CheckedHeap T) (a b : Ptr) :
    Option (Ordering × CheckedHeap T) :=
  if a = b then
    some (Ordering.eq, h)
  else do
    let h1 ← acquireRead h a
    let h2 ← acquireRead h1 b
    let va ← readValue h2 a
    let vb ← readValue h2 b
    let h3 ← releaseRead h2 b
    let h4 ← releaseRead h3 a
    pure (cmpT va vb, h4)

/-- Embeds `Hash::hash for SCell` (lib.rs lines 89-93, the forwarding layer
compiled with the checked strategy): hash the borrowed value into the hasher
state, then drop the `Ref`.  The hasher is embedded as a state transformer. -/
def cellHash (hashT : T → Nat → Nat) (h : CheckedHeap T) (p : Ptr) (st : Nat) :
    Option (Nat × CheckedHeap T) := do
  let (v, h1) ← readView h p
  pure (hashT v st, h1)

/-- Embeds `Display::fmt` and `Debug::fmt for SCell` (lib.rs lines 96-112,
identical bodies): format the borrowed value, then drop the `Ref`.  The
formatter outcome is `T`'s formatting function applied to the value, an
`Option String` whose `none` is `fmt::Error`. -/
def cellFmt (fmtT : T → Option String) (h : CheckedHeap T) (p : Ptr) :
    Option (Option String × CheckedHeap T) := do
  let (v, h1) ← readView h p
  pure (fmtT v, h1)

/-- Iterated read acquisition: `n` nested `SCell::borrow` calls on one slot. -/
def acquireReadN (h : CheckedHeap T) (p : Ptr) : Nat → Option (CheckedHeap T)
  | 0 => some h
  | n + 1 => (acquireRead h p).bind (fun h2 => acquireReadN h2 p n)

/-- Iterated read release: dropping `n` outstanding `Ref`s on one slot. -/
def releaseReadN (h : CheckedHeap T) (p : Ptr) : Nat → Option (CheckedHeap T)
  | 0 => some h
  | n + 1 => (releaseRead h p).bind (fun h2 => releaseReadN h2 p n)

end Checked

namespace Unchecked

variable {T : Type}

/-- Embeds `SCell::new` (unchecked.rs line 19): allocate a fresh slot holding
`t` with strong count 1; no borrow state exists. -/
def new (h : UncheckedHeap T) (t : T) : UncheckedHeap T × Ptr :=
  (h ++ [⟨1, t⟩], h.length)

/-- Embeds `SCell::borrow` (unchecked.rs lines 25-27): a direct reference into
the slot's memory with no check and no state change; reading through it yields
the slot's value. -/
def borrow (h : UncheckedHeap T) (p : Ptr) : Option T :=
  (h[p]?).map USlot.value

/-- Embeds `SCell::borrow_mut` (unchecked.rs lines 29-31) followed by a store
through the returned `RefMut`: replaces the slot's value with no check. -/
def borrowMutSet (h : UncheckedHeap T) (p : Ptr) (t : T) : Option (UncheckedHeap T) :=
  (h[p]?).map (fun s => h.set p { s with value := t })

/-- Embeds `Clone for SCell` (unchecked.rs lines 34-38): `Rc::clone`
increments the slot's strong count and yields a second handle to the same
slot. -/
def clone (h : UncheckedHeap T) (p : Ptr) : Option (UncheckedHeap T × Ptr) :=
  (h[p]?).map (fun s => (h.set p { s with refs := s.refs + 1 }, p))

/-- Embeds `PartialEq::eq for SCell` (unchecked.rs lines 43-45): always borrow
both operands and compare the values with `T`'s `eq`; there is no pointer
short-circuit. -/
def cellEq (eqT : T → T → Bool) (h : UncheckedHeap T) (a b : Ptr) : Option Bool := do
  let va ← borrow h a
  let vb ← borrow h b
  pure (eqT va vb)

/-- Embeds `PartialEq::ne for SCell` (unchecked.rs lines 47-49). -/
def cellNe (neT : T → T → Bool) (h : UncheckedHeap T) (a b : Ptr) : Option Bool := do
  let va ← borrow h a
  let vb ← borrow h b
  pure (neT va vb)

/-- Embeds `PartialOrd::partial_cmp for SCell` (unchecked.rs lines 57-59). -/
def cellPcmp (pcmpT : T → T → Option Ordering) (h : UncheckedHeap T) (a b : Ptr) :
    Option (Option Ordering) := do
  let va ← borrow h a
  let vb ← borrow h b
  pure (pcmpT va vb)

/-- Embeds `PartialOrd::lt for SCell` (unchecked.rs lines 61-63). -/
def cellLt (ltT : T → T → Bool) (h : UncheckedHeap T) (a b : Ptr) : Option Bool := do
  let va ← borrow h a
  let vb ← borrow h b
  pure (ltT va vb)

/-- Embeds `PartialOrd::le for SCell` (unchecked.rs lines 65-67). -/
def cellLe (leT : T → T → Bool) (h : UncheckedHeap T) (a b : Ptr) : Option Bool := do
  let va ← borrow h a
  let vb ← borrow h b
  pure (leT va vb)

/-- Embeds `PartialOrd::gt for SCell` (unchecked.rs lines 69-71). -/
def cellGt (gtT : T → T → Bool) (h : UncheckedHeap T) (a b : Ptr) : Option Bool := do
  let va ← borrow h a
  let vb ← borrow h b
  pure (gtT va vb)

/-- Embeds `PartialOrd::ge for SCell` (unchecked.rs lines 73-75). -/
def cellGe (geT : T → T → Bool) (h : UncheckedHeap T) (a b : Ptr) : Option Bool := do
  let va ← borrow h a
  let vb ← borrow h b
  pure (geT va vb)

/-- Embeds `Ord::cmp for SCell` (unchecked.rs lines 81-83). -/
def cellCmp (cmpT : T → T → Ordering) (h : UncheckedHeap T) (a b : Ptr) :
    Option Ordering := do
  let va ← borrow h a
  let vb ← borrow h b
  pure (cmpT va vb)

/-- Embeds `Hash::hash for SCell` (unchecked.rs lines 89-93). -/
def cellHash (hashT : T → Nat → Nat) (h : UncheckedHeap T) (p : Ptr) (st : Nat) :
    Option Nat := do
  let v ← borrow h p
  pure (hashT v st)

/-- Embeds `Display::fmt` and `Debug::fmt for SCell` (unchecked.rs lines
99-109, identical bodies). -/
def cellFmt (fmtT : T → Option String) (h : UncheckedHeap T) (p : Ptr) :
    Option (Option String) := do
  let v ← borrow h p
  pure (fmtT v)

end Unchecked

/-- Forgetting the borrow flags of a checked heap gives an unchecked heap over
the same slots: same strong counts, same values.  This is the simulation map
used to compare the two strategies. -/
def toUnchecked {T : Type} (h : CheckedHeap T) : UncheckedHeap T :=
  h.map (fun s => ⟨s.refs, s.value⟩)

/-- A checked heap is quiescent when no view is outstanding on any slot: the
caller holds no borrows, the precondition of the checked-vs-unchecked
behavioral contract. -/
def Quiescent {T : Type} (h : CheckedHeap T) : Prop :=
  ∀ s, s ∈ h → s.state = BorrowState.Unborrowed

instance {T : Type} (h : CheckedHeap T) : Decidable (Quiescent h) := by
  unfold Quiescent
  infer_instance

/-- A model of a type with a lawless `PartialEq`, mirroring IEEE-754 floats
where `nan == nan` is `false`: the values are a number or `nan`. -/
inductive FVal : Type where
  | num : Nat → FVal
  | nan : FVal
  deriving DecidableEq, Repr

/-- Equality on `FVal` as Rust `PartialEq` on floats behaves: `nan` is equal to
nothing, including itself. -/
def fvalEq : FVal → FVal → Bool
  | FVal.num a, FVal.num b => a = b
  | _, _ => false

section HeapLemmas

variable {T : Type}

/-- Setting a list index to the element it already holds is the identity. -/
theorem heapSetSelf {β : Type} (xs : List β) (k : Nat) (x : β)
    (hx : xs[k]? = some x) : xs.set k x = xs := by
  have hk : k < xs.length := by
    rcases List.getElem?_eq_some_iff.mp hx with ⟨h1, h2⟩
    exact h1
  apply List.ext_getElem?
  intro j
  by_cases hjk : j = k
  · subst hjk
    rw [List.getElem?_set_self hk, hx]
  · rw [List.getElem?_set_ne (fun e => hjk e.symm)]

/-- A slot lookup bounds the index by the heap length. -/
theorem heapLtOfGet {β : Type} {xs : List β} {k : Nat} {x : β}
    (hx : xs[k]? = some x) : k < xs.length := by
  rcases List.getElem?_eq_some_iff.mp hx with ⟨hlt, _⟩
  exact hlt

end HeapLemmas

namespace Checked

variable {T : Type}

theorem acquireRead_of_unborrowed {h : CheckedHeap T} {p : Ptr} {s : Slot T}
    (hp : h[p]? = some s) (hs : s.state = BorrowState.Unborrowed) :
    acquireRead h p = some (h.set p { s with state := BorrowState.SharedRead 1 }) := by
  simp [acquireRead, hp, hs]

theorem acquireWrite_of_unborrowed {h : CheckedHeap T} {p : Ptr} {s : Slot T}
    (hp : h[p]? = some s) (hs : s.state = BorrowState.Unborrowed) :
    acquireWrite h p = some (h.set p { s with state := BorrowState.Exclusive }) := by
  simp [acquireWrite, hp, hs]

/-- A full scoped read view on an unborrowed slot yields the stored value and
restores the heap exactly: the automatic release undoes the acquisition. -/
theorem readView_of_unborrowed {h : CheckedHeap T} {p : Ptr} {s : Slot T}
    (hp : h[p]? = some s) (hs : s.state = BorrowState.Unborrowed) :
    readView h p = some (s.value, h) := by
  have hlt : p < h.length := heapLtOfGet hp
  have h1 : acquireRead h p = some (h.set p { s with state := BorrowState.SharedRead 1 }) :=
    acquireRead_of_unborrowed hp hs
  have hget1 : (h.set p { s with state := BorrowState.SharedRead 1 })[p]? =
      some { s with state := BorrowState.SharedRead 1 } := by
    simp [List.getElem?_set_self hlt]
  have hback : { s with state := BorrowState.Unborrowed } = s := by
    cases s; simp_all
  simp only [readView, h1, Option.bind_eq_bind, Option.some_bind, readValue, hget1,
    Option.map_some, releaseRead, List.set_set, hback, heapSetSelf h p s hp]
  rfl

/-- A full scoped write view on an unborrowed slot stores the new value and
ends with the slot unborrowed again: the heap is the original with only the
value replaced. -/
theorem writeView_of_unborrowed {h : CheckedHeap T} {p : Ptr} {s : Slot T} {t : T}
    (hp : h[p]? = some s) (hs : s.state = BorrowState.Unborrowed) :
    writeView h p t = some (h.set p { s with value := t }) := by
  have hlt : p < h.length := heapLtOfGet hp
  have h1 : acquireWrite h p = some (h.set p { s with state := BorrowState.Exclusive }) :=
    acquireWrite_of_unborrowed hp hs
  have hget1 : (h.set p { s with state := BorrowState.Exclusive })[p]? =
      some { s with state := BorrowState.Exclusive } := by
    simp [List.getElem?_set_self hlt]
  have h2 : writeValue (h.set p { s with state := BorrowState.Exclusive }) p t =
      some (h.set p { refs := s.refs, value := t, state := BorrowState.Exclusive }) := by
    simp [writeValue, hget1, List.set_set]
  have hget2 : (h.set p { refs := s.refs, value := t, state := BorrowState.Exclusive })[p]? =
      some { refs := s.refs, value := t, state := BorrowState.Exclusive } := by
    simp [List.getElem?_set_self hlt]
  have h3 : releaseWrite
      (h.set p { refs := s.refs, value := t, state := BorrowState.Exclusive }) p =
      some (h.set p { refs := s.refs, value := t, state := BorrowState.Unborrowed }) := by
    simp [releaseWrite, hget2, List.set_set]
  simp only [writeView, Option.bind_eq_bind, h1, Option.some_bind, h2, h3]
  rw [hs]

end Checked


namespace Checked

variable {T : Type}

/-- Shape of a successful read acquisition: only the addressed slot's state
changed. -/
theorem acquireRead_shape {h h2 : CheckedHeap T} {p : Ptr}
    (e : acquireRead h p = some h2) :
    ∃ s st, h[p]? = some s ∧ h2 = h.set p { s with state := st } := by
  cases hp : h[p]? with
  | none => rw [acquireRead, hp] at e; cases e
  | some s =>
    cases hs : s.state with
    | Unborrowed =>
      rw [acquireRead_of_unborrowed hp hs] at e
      exact ⟨s, _, rfl, (Option.some_inj.mp e).symm⟩
    | SharedRead n =>
      have e2 : acquireRead h p =
          some (h.set p { s with state := BorrowState.SharedRead (n + 1) }) := by
        simp [acquireRead, hp, hs]
      rw [e2] at e
      exact ⟨s, _, rfl, (Option.some_inj.mp e).symm⟩
    | Exclusive =>
      have e2 : acquireRead h p = none := by simp [acquireRead, hp, hs]
      rw [e2] at e; cases e

/-- The common distinct-slot branch of every forwarded comparison (checked.rs
lines 74-153): read-borrow both slots, combine the two values with `f`, drop
both `Ref`s.  On a heap where both slots are unborrowed it returns the
combination of the stored values and restores the heap exactly. -/
theorem forward2_of_unborrowed {α : Type} (f : T → T → α) {h : CheckedHeap T}
    {a b : Ptr} {sa sb : Slot T} (hab : a ≠ b) (ha : h[a]? = some sa)
    (hsa : sa.state = BorrowState.Unborrowed) (hb : h[b]? = some sb)
    (hsb : sb.state = BorrowState.Unborrowed) :
    (do
      let h1 ← acquireRead h a
      let h2 ← acquireRead h1 b
      let va ← readValue h2 a
      let vb ← readValue h2 b
      let h3 ← releaseRead h2 b
      let h4 ← releaseRead h3 a
      pure ((f va vb, h4) : α × CheckedHeap T)) = some (f sa.value sb.value, h) := by
  have hlta : a < h.length := heapLtOfGet ha
  have hltb : b < h.length := heapLtOfGet hb
  have e1 : acquireRead h a = some (h.set a { sa with state := BorrowState.SharedRead 1 }) :=
    acquireRead_of_unborrowed ha hsa
  have hb1 : (h.set a { sa with state := BorrowState.SharedRead 1 })[b]? = some sb := by
    rw [List.getElem?_set_ne hab]; exact hb
  have e2 : acquireRead (h.set a { sa with state := BorrowState.SharedRead 1 }) b =
      some ((h.set a { sa with state := BorrowState.SharedRead 1 }).set b
        { sb with state := BorrowState.SharedRead 1 }) :=
    acquireRead_of_unborrowed hb1 hsb
  have ha2 : ((h.set a { sa with state := BorrowState.SharedRead 1 }).set b
      { sb with state := BorrowState.SharedRead 1 })[a]? =
      some { sa with state := BorrowState.SharedRead 1 } := by
    rw [List.getElem?_set_ne (Ne.symm hab)]
    exact List.getElem?_set_self hlta
  have hb2 : ((h.set a { sa with state := BorrowState.SharedRead 1 }).set b
      { sb with state := BorrowState.SharedRead 1 })[b]? =
      some { sb with state := BorrowState.SharedRead 1 } := by
    apply List.getElem?_set_self
    simpa using hltb
  have e3 : readValue ((h.set a { sa with state := BorrowState.SharedRead 1 }).set b
      { sb with state := BorrowState.SharedRead 1 }) a = some sa.value := by
    simp [readValue, ha2]
  have e4 : readValue ((h.set a { sa with state := BorrowState.SharedRead 1 }).set b
      { sb with state := BorrowState.SharedRead 1 }) b = some sb.value := by
    simp [readValue, hb2]
  have hsbeq : ({ sb with state := BorrowState.Unborrowed } : Slot T) = sb := by
    cases sb; simp_all
  have hsaeq : ({ sa with state := BorrowState.Unborrowed } : Slot T) = sa := by
    cases sa; simp_all
  have e5 : releaseRead ((h.set a { sa with state := BorrowState.SharedRead 1 }).set b
      { sb with state := BorrowState.SharedRead 1 }) b =
      some (h.set a { sa with state := BorrowState.SharedRead 1 }) := by
    simp only [releaseRead, hb2]
    rw [List.set_set, hsbeq, heapSetSelf _ b sb hb1]
  have ha1 : (h.set a { sa with state := BorrowState.SharedRead 1 })[a]? =
      some { sa with state := BorrowState.SharedRead 1 } := List.getElem?_set_self hlta
  have e6 : releaseRead (h.set a { sa with state := BorrowState.SharedRead 1 }) a =
      some h := by
    simp only [releaseRead, ha1]
    rw [List.set_set, hsaeq, heapSetSelf h a sa ha]
  simp only [Option.bind_eq_bind, e1, Option.some_bind, e2, e3, e4, e5, e6]
  rfl

/-- The distinct-slot branch of a forwarded comparison fails when the left
operand's slot has an outstanding write borrow. -/
theorem forward2_of_exclusive_left {α : Type} (f : T → T → α) {h : CheckedHeap T}
    {a b : Ptr} {sa : Slot T} (ha : h[a]? = some sa)
    (hsa : sa.state = BorrowState.Exclusive) :
    (do
      let h1 ← acquireRead h a
      let h2 ← acquireRead h1 b
      let va ← readValue h2 a
      let vb ← readValue h2 b
      let h3 ← releaseRead h2 b
      let h4 ← releaseRead h3 a
      pure ((f va vb, h4) : α × CheckedHeap T)) = none := by
  have e : acquireRead h a = none := by simp [acquireRead, ha, hsa]
  simp [e]

/-- The distinct-slot branch of a forwarded comparison fails when the right
operand's slot has an outstanding write borrow. -/
theorem forward2_of_exclusive_right {α : Type} (f : T → T → α) {h : CheckedHeap T}
    {a b : Ptr} {sb : Slot T} (hab : a ≠ b) (hb : h[b]? = some sb)
    (hsb : sb.state = BorrowState.Exclusive) :
    (do
      let h1 ← acquireRead h a
      let h2 ← acquireRead h1 b
      let va ← readValue h2 a
      let vb ← readValue h2 b
      let h3 ← releaseRead h2 b
      let h4 ← releaseRead h3 a
      pure ((f va vb, h4) : α × CheckedHeap T)) = none := by
  cases e : acquireRead h a with
  | none => simp [e]
  | some h1 =>
    obtain ⟨s, st, hp, rfl⟩ := acquireRead_shape e
    have hb1 : (h.set a { s with state := st })[b]? = some sb := by
      rw [List.getElem?_set_ne hab]; exact hb
    have e2 : acquireRead (h.set a { s with state := st }) b = none := by
      simp [acquireRead, hb1, hsb]
    simp [e, e2]

end Checked


namespace Checked

variable {T : Type}

/-- Read acquisitions accumulate: from `SharedRead m`, `n` further successful
read borrows leave the slot at `SharedRead (m + n)`. -/
theorem acquireReadN_of_read : ∀ (n : Nat) (h : CheckedHeap T) (p : Ptr) (s : Slot T) (m : Nat),
    h[p]? = some s → s.state = BorrowState.SharedRead m →
    acquireReadN h p n = some (h.set p { s with state := BorrowState.SharedRead (m + n) }) := by
  intro n
  induction n
  case zero =>
    intro h p s m hp hs
    have heq : ({ s with state := BorrowState.SharedRead (m + 0) } : Slot T) = s := by
      cases s; simp_all
    rw [acquireReadN, heq, heapSetSelf h p s hp]
  case succ n ih =>
    intro h p s m hp hs
    have hlt : p < h.length := heapLtOfGet hp
    have e1 : acquireRead h p =
        some (h.set p { s with state := BorrowState.SharedRead (m + 1) }) := by
      simp [acquireRead, hp, hs]
    rw [acquireReadN, e1, Option.some_bind,
      ih _ p _ (m + 1) (List.getElem?_set_self hlt) rfl, List.set_set]
    have : m + 1 + n = m + (n + 1) := by omega
    rw [this]

/-- From the unborrowed state, `n + 1` nested read borrows all succeed and
leave the slot at `SharedRead (n + 1)`. -/
theorem acquireReadN_of_unborrowed {h : CheckedHeap T} {p : Ptr} {s : Slot T}
    (hp : h[p]? = some s) (hs : s.state = BorrowState.Unborrowed) (n : Nat) :
    acquireReadN h p (n + 1) =
      some (h.set p { s with state := BorrowState.SharedRead (n + 1) }) := by
  have hlt : p < h.length := heapLtOfGet hp
  rw [acquireReadN, acquireRead_of_unborrowed hp hs, Option.some_bind,
    acquireReadN_of_read n _ p _ 1 (List.getElem?_set_self hlt) rfl, List.set_set]
  have : 1 + n = n + 1 := by omega
  rw [this]

/-- Dropping all `n + 1` outstanding `Ref`s of a slot at `SharedRead (n + 1)`
returns it to the unborrowed state. -/
theorem releaseReadN_of_read : ∀ (n : Nat) (h : CheckedHeap T) (p : Ptr) (s : Slot T),
    h[p]? = some s → s.state = BorrowState.SharedRead (n + 1) →
    releaseReadN h p (n + 1) = some (h.set p { s with state := BorrowState.Unborrowed }) := by
  intro n
  induction n
  case zero =>
    intro h p s hp hs
    have e1 : releaseRead h p = some (h.set p { s with state := BorrowState.Unborrowed }) := by
      simp [releaseRead, hp, hs]
    rw [releaseReadN, e1, Option.some_bind, releaseReadN]
  case succ n ih =>
    intro h p s hp hs
    have hlt : p < h.length := heapLtOfGet hp
    have e1 : releaseRead h p =
        some (h.set p { s with state := BorrowState.SharedRead (n + 1) }) := by
      simp [releaseRead, hp, hs]
    rw [releaseReadN, e1, Option.some_bind,
      ih _ p _ (List.getElem?_set_self hlt) rfl, List.set_set]

/-- Balanced borrows restore the heap: acquiring any positive number of read
views on an unborrowed slot and then releasing all of them returns the exact
original heap. -/
theorem readBorrowRoundTrip {h : CheckedHeap T} {p : Ptr} {s : Slot T}
    (hp : h[p]? = some s) (hs : s.state = BorrowState.Unborrowed) (n : Nat) :
    (acquireReadN h p (n + 1)).bind (fun h2 => releaseReadN h2 p (n + 1)) = some h := by
  have hlt : p < h.length := heapLtOfGet hp
  rw [acquireReadN_of_unborrowed hp hs n, Option.some_bind,
    releaseReadN_of_read n _ p _ (List.getElem?_set_self hlt) rfl, List.set_set]
  have heq : ({ s with state := BorrowState.Unborrowed } : Slot T) = s := by
    cases s; simp_all
  rw [heq, heapSetSelf h p s hp]

/-- An acquired write view, once released, restores the heap exactly. -/
theorem writeBorrowRoundTrip {h : CheckedHeap T} {p : Ptr} {s : Slot T}
    (hp : h[p]? = some s) (hs : s.state = BorrowState.Unborrowed) :
    (acquireWrite h p).bind (fun h2 => releaseWrite h2 p) = some h := by
  have hlt : p < h.length := heapLtOfGet hp
  rw [acquireWrite_of_unborrowed hp hs, Option.some_bind]
  have hget : (h.set p { s with state := BorrowState.Exclusive })[p]? =
      some { s with state := BorrowState.Exclusive } := List.getElem?_set_self hlt
  have heq : ({ s with state := BorrowState.Unborrowed } : Slot T) = s := by
    cases s; simp_all
  simp only [releaseWrite, hget]
  rw [List.set_set, heq, heapSetSelf h p s hp]

end Checked

/-- Looking up a slot of a quiescent heap always finds it unborrowed. -/
theorem quiescentGet {T : Type} {h : CheckedHeap T} {p : Ptr} {s : Slot T}
    (hq : Quiescent h) (hp : h[p]? = some s) : s.state = BorrowState.Unborrowed :=
  hq s (List.getElem?_mem hp)

/-- The simulation map preserves slot lookups. -/
theorem toUncheckedGet {T : Type} (h : CheckedHeap T) (p : Ptr) :
    (toUnchecked h)[p]? = (h[p]?).map (fun s => (⟨s.refs, s.value⟩ : USlot T)) := by
  simp [toUnchecked]


/-- C3: in the checked strategy the per-slot aliasing state machine is exactly:
a read acquisition maps Unborrowed to SharedRead 1, maps SharedRead n to
SharedRead (n + 1), and fails from Exclusive; a write acquisition maps
Unborrowed to Exclusive and fails from every SharedRead state and from
Exclusive.  Consequently acquiring a second read view while one read view is
held always succeeds, and acquiring a write view while any view (read or
write) is held always fails with an aliasing violation. -/
theorem c3_checked_state_machine {T : Type} (h : CheckedHeap T) (p : Ptr) (s : Slot T)
    (hp : h[p]? = some s) :
    (s.state = BorrowState.Unborrowed →
      Checked.acquireRead h p = some (h.set p { s with state := BorrowState.SharedRead 1 })) ∧
    (∀ n, s.state = BorrowState.SharedRead n →
      Checked.acquireRead h p =
        some (h.set p { s with state := BorrowState.SharedRead (n + 1) })) ∧
    (s.state = BorrowState.Exclusive → Checked.acquireRead h p = none) ∧
    (s.state = BorrowState.Unborrowed →
      Checked.acquireWrite h p = some (h.set p { s with state := BorrowState.Exclusive })) ∧
    (∀ n, s.state = BorrowState.SharedRead n → Checked.acquireWrite h p = none) ∧
    (s.state = BorrowState.Exclusive → Checked.acquireWrite h p = none) ∧
    (∀ h2, Checked.acquireRead h p = some h2 → (Checked.acquireRead h2 p).isSome) ∧
    (∀ h2, Checked.acquireRead h p = some h2 → Checked.acquireWrite h2 p = none) ∧
    (∀ h2, Checked.acquireWrite h p = some h2 → Checked.acquireWrite h2 p = none) := by
  have hlt : p < h.length := heapLtOfGet hp
  refine ⟨fun hs => by simp [Checked.acquireRead, hp, hs],
    fun n hs => by simp [Checked.acquireRead, hp, hs],
    fun hs => by simp [Checked.acquireRead, hp, hs],
    fun hs => by simp [Checked.acquireWrite, hp, hs],
    fun n hs => by simp [Checked.acquireWrite, hp, hs],
    fun hs => by simp [Checked.acquireWrite, hp, hs], ?_, ?_, ?_⟩
  · intro h2 e
    cases hs : s.state with
    | Unborrowed =>
      rw [Checked.acquireRead_of_unborrowed hp hs] at e
      obtain rfl := Option.some_inj.mp e
      simp [Checked.acquireRead, List.getElem?_set_self hlt]
    | SharedRead n =>
      have e2 : Checked.acquireRead h p =
          some (h.set p { s with state := BorrowState.SharedRead (n + 1) }) := by
        simp [Checked.acquireRead, hp, hs]
      rw [e2] at e
      obtain rfl := Option.some_inj.mp e
      simp [Checked.acquireRead, List.getElem?_set_self hlt]
    | Exclusive =>
      have e2 : Checked.acquireRead h p = none := by simp [Checked.acquireRead, hp, hs]
      rw [e2] at e; cases e
  · intro h2 e
    cases hs : s.state with
    | Unborrowed =>
      rw [Checked.acquireRead_of_unborrowed hp hs] at e
      obtain rfl := Option.some_inj.mp e
      simp [Checked.acquireWrite, List.getElem?_set_self hlt]
    | SharedRead n =>
      have e2 : Checked.acquireRead h p =
          some (h.set p { s with state := BorrowState.SharedRead (n + 1) }) := by
        simp [Checked.acquireRead, hp, hs]
      rw [e2] at e
      obtain rfl := Option.some_inj.mp e
      simp [Checked.acquireWrite, List.getElem?_set_self hlt]
    | Exclusive =>
      have e2 : Checked.acquireRead h p = none := by simp [Checked.acquireRead, hp, hs]
      rw [e2] at e; cases e
  · intro h2 e
    cases hs : s.state with
    | Unborrowed =>
      rw [Checked.acquireWrite_of_unborrowed hp hs] at e
      obtain rfl := Option.some_inj.mp e
      simp [Checked.acquireWrite, List.getElem?_set_self hlt]
    | SharedRead n =>
      have e2 : Checked.acquireWrite h p = none := by simp [Checked.acquireWrite, hp, hs]
      rw [e2] at e; cases e
    | Exclusive =>
      have e2 : Checked.acquireWrite h p = none := by simp [Checked.acquireWrite, hp, hs]
      rw [e2] at e; cases e

/-- Witness for C3 on a one-slot heap holding 0: a read borrow moves the slot
from Unborrowed to SharedRead 1, and a write borrow fails while that read
borrow is outstanding. -/
theorem c3_witness :
    Checked.acquireRead [(⟨1, 0, BorrowState.Unborrowed⟩ : Slot Nat)] 0 =
      some [⟨1, 0, BorrowState.SharedRead 1⟩] ∧
    Checked.acquireWrite [(⟨1, 0, BorrowState.SharedRead 1⟩ : Slot Nat)] 0 = none := by
  obtain ⟨hRd, rB, rC, rD, rE, rF, rG, rH, rI⟩ := c3_checked_state_machine
    [⟨1, 0, BorrowState.Unborrowed⟩] 0 ⟨1, 0, BorrowState.Unborrowed⟩ (by decide)
  obtain ⟨wA, wB, wC, wD, hWr, wF, wG, wH, wI⟩ := c3_checked_state_machine
    [⟨1, 0, BorrowState.SharedRead 1⟩] 0 ⟨1, 0, BorrowState.SharedRead 1⟩ (by decide)
  exact ⟨hRd rfl, hWr 1 rfl⟩

/-- C4: in the unchecked strategy a read or write view is produced for every
heap and every live handle, whatever operations happened before: `borrow`
yields exactly the slot's stored value, a store through `borrow_mut` replaces
exactly the slot's value, a subsequent read sees that store (the views alias
the slot's memory directly), and no failure is ever raised. -/
theorem c4_unchecked_always_succeeds {T : Type} (h : UncheckedHeap T) (p : Ptr)
    (s : USlot T) (hp : h[p]? = some s) :
    Unchecked.borrow h p = some s.value ∧
    (∀ t, Unchecked.borrowMutSet h p t = some (h.set p { s with value := t }) ∧
      Unchecked.borrow (h.set p { s with value := t }) p = some t) := by
  have hlt : p < h.length := heapLtOfGet hp
  refine ⟨by simp [Unchecked.borrow, hp], fun t => ⟨by simp [Unchecked.borrowMutSet, hp], ?_⟩⟩
  simp [Unchecked.borrow, List.getElem?_set_self hlt]

/-- Witness for C4 on a one-slot heap holding 5: reading yields 5, writing 7
succeeds, and reading again yields 7. -/
theorem c4_witness :
    Unchecked.borrow [(⟨1, 5⟩ : USlot Nat)] 0 = some 5 ∧
    Unchecked.borrowMutSet [(⟨1, 5⟩ : USlot Nat)] 0 7 = some [⟨1, 7⟩] ∧
    Unchecked.borrow [(⟨1, 7⟩ : USlot Nat)] 0 = some 7 := by
  obtain ⟨hRd, hWr⟩ := c4_unchecked_always_succeeds [⟨1, 5⟩] 0 ⟨1, 5⟩ (by decide)
  obtain ⟨hSet, hSee⟩ := hWr 7
  exact ⟨hRd, hSet, hSee⟩


/-- C5: in the checked strategy releases undo acquisitions: dropping the last
read view or the write view returns the slot to Unborrowed (dropping one of
several read views just decrements the count), from Unborrowed both
acquisitions succeed, and the scoped operations — which perform their release
on every exit path because the `Ref` / `RefMut` destructor runs when the scope
ends — restore the heap: any balanced acquire/release sequence of n + 1 read
views returns the exact original heap, as does a write view, and a completed
scoped read leaves the heap untouched while a completed scoped write changes
only the value, leaving the slot Unborrowed. -/
theorem c5_checked_release_restores {T : Type} (h : CheckedHeap T) (p : Ptr)
    (s : Slot T) (hp : h[p]? = some s) :
    (s.state = BorrowState.SharedRead 1 →
      Checked.releaseRead h p = some (h.set p { s with state := BorrowState.Unborrowed })) ∧
    (∀ n, s.state = BorrowState.SharedRead (n + 2) →
      Checked.releaseRead h p =
        some (h.set p { s with state := BorrowState.SharedRead (n + 1) })) ∧
    (s.state = BorrowState.Exclusive →
      Checked.releaseWrite h p = some (h.set p { s with state := BorrowState.Unborrowed })) ∧
    (s.state = BorrowState.Unborrowed →
      (Checked.acquireRead h p).isSome ∧ (Checked.acquireWrite h p).isSome) ∧
    (s.state = BorrowState.Unborrowed → ∀ n,
      (Checked.acquireReadN h p (n + 1)).bind
        (fun h2 => Checked.releaseReadN h2 p (n + 1)) = some h) ∧
    (s.state = BorrowState.Unborrowed →
      (Checked.acquireWrite h p).bind (fun h2 => Checked.releaseWrite h2 p) = some h) ∧
    (s.state = BorrowState.Unborrowed → Checked.readView h p = some (s.value, h)) ∧
    (s.state = BorrowState.Unborrowed → ∀ t,
      Checked.writeView h p t = some (h.set p { s with value := t })) := by
  refine ⟨fun hs => by simp [Checked.releaseRead, hp, hs],
    fun n hs => by simp [Checked.releaseRead, hp, hs],
    fun hs => by simp [Checked.releaseWrite, hp, hs],
    fun hs => ⟨by simp [Checked.acquireRead, hp, hs], by simp [Checked.acquireWrite, hp, hs]⟩,
    fun hs n => Checked.readBorrowRoundTrip hp hs n,
    fun hs => Checked.writeBorrowRoundTrip hp hs,
    fun hs => Checked.readView_of_unborrowed hp hs,
    fun hs t => Checked.writeView_of_unborrowed hp hs⟩

/-- Witness for C5 on a one-slot heap holding 4: two nested read views then two
releases restore the heap, and a scoped write of 9 leaves the slot Unborrowed
with the new value. -/
theorem c5_witness :
    (Checked.acquireReadN [(⟨1, 4, BorrowState.Unborrowed⟩ : Slot Nat)] 0 2).bind
      (fun h2 => Checked.releaseReadN h2 0 2) = some [⟨1, 4, BorrowState.Unborrowed⟩] ∧
    Checked.writeView [(⟨1, 4, BorrowState.Unborrowed⟩ : Slot Nat)] 0 9 =
      some [⟨1, 9, BorrowState.Unborrowed⟩] := by
  obtain ⟨qA, qB, qC, qD, hRT, qF, qG, hWV⟩ := c5_checked_release_restores
    [⟨1, 4, BorrowState.Unborrowed⟩] 0 ⟨1, 4, BorrowState.Unborrowed⟩ (by decide)
  exact ⟨hRT rfl 1, hWV rfl 9⟩

/-- C7: wrapping any value and immediately taking a read view yields that value
back, in both strategies; the checked read view also leaves the heap exactly as
construction left it. -/
theorem c7_wrap_then_read {T : Type} (h : CheckedHeap T) (hu : UncheckedHeap T) (v : T) :
    Checked.readView (Checked.new h v).1 (Checked.new h v).2 = some (v, (Checked.new h v).1) ∧
    Unchecked.borrow (Unchecked.new hu v).1 (Unchecked.new hu v).2 = some v := by
  constructor
  · have hp : (h ++ [⟨1, v, BorrowState.Unborrowed⟩])[h.length]? =
        some (⟨1, v, BorrowState.Unborrowed⟩ : Slot T) := List.getElem?_concat_length h _
    exact Checked.readView_of_unborrowed hp rfl
  · have hp : (hu ++ [⟨1, v⟩])[hu.length]? = some (⟨1, v⟩ : USlot T) :=
      List.getElem?_concat_length hu _
    simp [Unchecked.new, Unchecked.borrow, hp]

/-- C8: cloning a handle is pure with respect to the slot: it succeeds for
every aliasing state of the slot (no aliasing-state check is performed — the
state is an arbitrary `s.state` here, including the borrowed states), bumps
only the reference count, leaves the slot's value and aliasing state unchanged,
leaves every other slot untouched, and returns a handle to the same slot; the
same holds in the unchecked strategy. -/
theorem c8_clone_pure {T : Type} (h : CheckedHeap T) (p : Ptr) (s : Slot T)
    (hp : h[p]? = some s) :
    Checked.clone h p = some (h.set p { s with refs := s.refs + 1 }, p) ∧
    (h.set p { s with refs := s.refs + 1 })[p]? =
      some ⟨s.refs + 1, s.value, s.state⟩ ∧
    (∀ q, q ≠ p → (h.set p { s with refs := s.refs + 1 })[q]? = h[q]?) ∧
    (∀ (hu : UncheckedHeap T) (u : USlot T), hu[p]? = some u →
      Unchecked.clone hu p = some (hu.set p { u with refs := u.refs + 1 }, p) ∧
      (hu.set p { u with refs := u.refs + 1 })[p]? = some ⟨u.refs + 1, u.value⟩) := by
  have hlt : p < h.length := heapLtOfGet hp
  refine ⟨by simp [Checked.clone, hp], List.getElem?_set_self hlt,
    fun q hq => List.getElem?_set_ne (fun e => hq e.symm), fun hu u hpu => ?_⟩
  have hltu : p < hu.length := heapLtOfGet hpu
  exact ⟨by simp [Unchecked.clone, hpu], List.getElem?_set_self hltu⟩

/-- Witness for C8 on a slot that currently has an outstanding write view
(state Exclusive): cloning still succeeds, increments the count from 1 to 2,
and preserves the value 5 and the Exclusive state. -/
theorem c8_witness :
    Checked.clone [(⟨1, 5, BorrowState.Exclusive⟩ : Slot Nat)] 0 =
      some ([⟨2, 5, BorrowState.Exclusive⟩], 0) ∧
    Unchecked.clone [(⟨1, 5⟩ : USlot Nat)] 0 = some ([⟨2, 5⟩], 0) := by
  obtain ⟨hCk, kB, kC, hUn⟩ := c8_clone_pure [⟨1, 5, BorrowState.Exclusive⟩] 0
    ⟨1, 5, BorrowState.Exclusive⟩ (by decide)
  exact ⟨hCk, (hUn [⟨1, 5⟩] ⟨1, 5⟩ (by decide)).1⟩


/-- C6: cloning a handle shares the slot: the clone is a handle to the same
slot (the same pointer `p` comes back), and a mutation performed through a
scoped write view on the original handle — here storing `w` — is observed by a
subsequent read view taken through the clone, in both strategies. -/
theorem c6_clone_shares_mutation {T : Type} (h : CheckedHeap T) (p : Ptr) (s : Slot T)
    (w : T) (hp : h[p]? = some s) (hs : s.state = BorrowState.Unborrowed) :
    Checked.clone h p = some (h.set p { s with refs := s.refs + 1 }, p) ∧
    Checked.writeView (h.set p { s with refs := s.refs + 1 }) p w =
      some (h.set p ⟨s.refs + 1, w, s.state⟩) ∧
    Checked.readView (h.set p ⟨s.refs + 1, w, s.state⟩) p =
      some (w, h.set p ⟨s.refs + 1, w, s.state⟩) ∧
    (∀ (hu : UncheckedHeap T) (u : USlot T), hu[p]? = some u →
      Unchecked.clone hu p = some (hu.set p { u with refs := u.refs + 1 }, p) ∧
      Unchecked.borrowMutSet (hu.set p { u with refs := u.refs + 1 }) p w =
        some (hu.set p ⟨u.refs + 1, w⟩) ∧
      Unchecked.borrow (hu.set p ⟨u.refs + 1, w⟩) p = some w) := by
  have hlt : p < h.length := heapLtOfGet hp
  have hp2 : (h.set p { s with refs := s.refs + 1 })[p]? =
      some { s with refs := s.refs + 1 } := List.getElem?_set_self hlt
  have hp3 : (h.set p ⟨s.refs + 1, w, s.state⟩)[p]? = some ⟨s.refs + 1, w, s.state⟩ :=
    List.getElem?_set_self hlt
  refine ⟨by simp [Checked.clone, hp], ?_, ?_, fun hu u hpu => ?_⟩
  · have e := Checked.writeView_of_unborrowed hp2 (show Slot.state _ = _ from hs) (t := w)
    rw [e, List.set_set]
  · have e := Checked.readView_of_unborrowed hp3 (show Slot.state _ = _ from hs)
    exact e
  · have hltu : p < hu.length := heapLtOfGet hpu
    have hpu2 : (hu.set p { u with refs := u.refs + 1 })[p]? =
        some { u with refs := u.refs + 1 } := List.getElem?_set_self hltu
    refine ⟨by simp [Unchecked.clone, hpu], ?_, ?_⟩
    · simp [Unchecked.borrowMutSet, hpu2, List.set_set]
    · have hpu3 : (hu.set p ⟨u.refs + 1, w⟩)[p]? = some ⟨u.refs + 1, w⟩ :=
        List.getElem?_set_self hltu
      simp [Unchecked.borrow, hpu3]

/-- Witness for C6, the spec scenario: wrap 5 (a one-slot heap), clone the
handle, write 7 through the original, read 7 through the clone — in both
strategies. -/
theorem c6_witness :
    Checked.clone [(⟨1, 5, BorrowState.Unborrowed⟩ : Slot Nat)] 0 =
      some ([⟨2, 5, BorrowState.Unborrowed⟩], 0) ∧
    Checked.writeView [(⟨2, 5, BorrowState.Unborrowed⟩ : Slot Nat)] 0 7 =
      some [⟨2, 7, BorrowState.Unborrowed⟩] ∧
    Checked.readView [(⟨2, 7, BorrowState.Unborrowed⟩ : Slot Nat)] 0 =
      some (7, [⟨2, 7, BorrowState.Unborrowed⟩]) ∧
    Unchecked.clone [(⟨1, 5⟩ : USlot Nat)] 0 = some ([⟨2, 5⟩], 0) ∧
    Unchecked.borrowMutSet [(⟨2, 5⟩ : USlot Nat)] 0 7 = some [⟨2, 7⟩] ∧
    Unchecked.borrow [(⟨2, 7⟩ : USlot Nat)] 0 = some 7 := by
  obtain ⟨hClone, hWrite, hRead, hUn⟩ := c6_clone_shares_mutation
    [(⟨1, 5, BorrowState.Unborrowed⟩ : Slot Nat)] 0 ⟨1, 5, BorrowState.Unborrowed⟩ 7
    (by decide) rfl
  obtain ⟨uClone, uWrite, uRead⟩ := hUn [⟨1, 5⟩] ⟨1, 5⟩ (by decide)
  exact ⟨hClone, hWrite, hRead, uClone, uWrite, uRead⟩

/-- C9: in the checked strategy a forwarded comparison of handles to distinct
slots read-borrows both operands and therefore fails (panics, embedded as
`none`) whenever a write view is outstanding on either operand's slot, for
equality and for ordering; comparing a handle with itself takes the
pointer-identity short-circuit, acquires no view, leaves the heap untouched,
and succeeds no matter what borrow state the slot is in — in particular even
while a write view is outstanding on it. -/
theorem c9_comparison_borrow_behavior {T : Type} (eqT : T → T → Bool)
    (cmpT : T → T → Ordering) (h : CheckedHeap T) (a b : Ptr) :
    (∀ sa, a ≠ b → h[a]? = some sa → sa.state = BorrowState.Exclusive →
      Checked.cellEq eqT h a b = none ∧ Checked.cellCmp cmpT h a b = none) ∧
    (∀ sb, a ≠ b → h[b]? = some sb → sb.state = BorrowState.Exclusive →
      Checked.cellEq eqT h a b = none ∧ Checked.cellCmp cmpT h a b = none) ∧
    (Checked.cellEq eqT h a a = some (true, h) ∧
      Checked.cellCmp cmpT h a a = some (Ordering.eq, h)) := by
  refine ⟨fun sa hab ha hsa => ?_, fun sb hab hb hsb => ?_,
    by simp [Checked.cellEq], by simp [Checked.cellCmp]⟩
  · constructor
    · simp only [Checked.cellEq, if_neg hab]
      exact Checked.forward2_of_exclusive_left eqT ha hsa
    · simp only [Checked.cellCmp, if_neg hab]
      exact Checked.forward2_of_exclusive_left cmpT ha hsa
  · constructor
    · simp only [Checked.cellEq, if_neg hab]
      exact Checked.forward2_of_exclusive_right eqT hab hb hsb
    · simp only [Checked.cellCmp, if_neg hab]
      exact Checked.forward2_of_exclusive_right cmpT hab hb hsb

/-- Witness for C9 on a two-slot heap where slot 1 is exclusively borrowed:
comparing handles 0 and 1 fails, while comparing handle 1 with itself
short-circuits to equal and leaves the heap untouched. -/
theorem c9_witness :
    Checked.cellEq Nat.beq
      [⟨1, 5, BorrowState.Unborrowed⟩, ⟨1, 6, BorrowState.Exclusive⟩] 0 1 = none ∧
    Checked.cellCmp compare
      [⟨1, 5, BorrowState.Unborrowed⟩, ⟨1, 6, BorrowState.Exclusive⟩] 0 1 = none ∧
    Checked.cellEq Nat.beq
      [⟨1, 5, BorrowState.Unborrowed⟩, ⟨1, 6, BorrowState.Exclusive⟩] 1 1 =
      some (true, [⟨1, 5, BorrowState.Unborrowed⟩, ⟨1, 6, BorrowState.Exclusive⟩]) := by
  obtain ⟨nA, hFail, nC⟩ := c9_comparison_borrow_behavior Nat.beq compare
    [⟨1, 5, BorrowState.Unborrowed⟩, ⟨1, 6, BorrowState.Exclusive⟩] 0 1
  obtain ⟨mA, mB, hSelfEq, mD⟩ := c9_comparison_borrow_behavior Nat.beq compare
    [⟨1, 5, BorrowState.Unborrowed⟩, ⟨1, 6, BorrowState.Exclusive⟩] 1 1
  obtain ⟨hFe, hFc⟩ := hFail ⟨1, 6, BorrowState.Exclusive⟩ (by decide) (by decide) rfl
  exact ⟨hFe, hFc, hSelfEq⟩


/-- Counterexample to C1: the pointer-identity short-circuit does NOT hold
identically in both strategies.  On a one-slot heap holding the float-like
value `nan` (whose `PartialEq` is not reflexive, as Rust permits), comparing
the handle with itself yields `true` in the checked strategy — the
short-circuit, no borrow — but the unchecked strategy (unchecked.rs lines
43-45) has no pointer check: it borrows the value twice and returns
`nan == nan`, i.e. `false`.  So for same-slot handles the unchecked strategy
does inspect the contained value and does not always return `true`. -/
theorem c1_counterexample :
    Checked.cellEq fvalEq [⟨1, FVal.nan, BorrowState.Unborrowed⟩] 0 0 =
      some (true, [⟨1, FVal.nan, BorrowState.Unborrowed⟩]) ∧
    Unchecked.cellEq fvalEq [⟨1, FVal.nan⟩] 0 0 = some false := by
  constructor
  · simp [Checked.cellEq]
  · decide

/-- C1 as amended: only the CHECKED strategy short-circuits comparisons of
handles to the same slot — equality to `true`, inequality to `false`,
`lt`/`gt` to `false`, `le`/`ge` to `true`, `partial_cmp` to `Some(Equal)`,
`cmp` to `Equal` — without borrowing or inspecting the contained value (the
heap comes back untouched, whatever the slot's borrow state), and falls back
to a full value-level comparison through read views only for handles to
distinct slots.  The unchecked strategy has no such short-circuit: even for
two handles to the same slot it reads the contained value through views and
applies `T`'s comparison to it. -/
theorem c1_amended_shortcircuit_checked_only {T : Type}
    (eqT neT ltT leT gtT geT : T → T → Bool) (pcmpT : T → T → Option Ordering)
    (cmpT : T → T → Ordering) (h : CheckedHeap T) (hu : UncheckedHeap T) (a : Ptr) :
    Checked.cellEq eqT h a a = some (true, h) ∧
    Checked.cellNe neT h a a = some (false, h) ∧
    Checked.cellLt ltT h a a = some (false, h) ∧
    Checked.cellLe leT h a a = some (true, h) ∧
    Checked.cellGt gtT h a a = some (false, h) ∧
    Checked.cellGe geT h a a = some (true, h) ∧
    Checked.cellPcmp pcmpT h a a = some (some Ordering.eq, h) ∧
    Checked.cellCmp cmpT h a a = some (Ordering.eq, h) ∧
    (∀ b sa sb, a ≠ b → h[a]? = some sa → sa.state = BorrowState.Unborrowed →
      h[b]? = some sb → sb.state = BorrowState.Unborrowed →
      Checked.cellEq eqT h a b = some (eqT sa.value sb.value, h) ∧
      Checked.cellCmp cmpT h a b = some (cmpT sa.value sb.value, h)) ∧
    (∀ u, hu[a]? = some u →
      Unchecked.cellEq eqT hu a a = some (eqT u.value u.value) ∧
      Unchecked.cellCmp cmpT hu a a = some (cmpT u.value u.value)) := by
  refine ⟨by simp [Checked.cellEq], by simp [Checked.cellNe], by simp [Checked.cellLt],
    by simp [Checked.cellLe], by simp [Checked.cellGt], by simp [Checked.cellGe],
    by simp [Checked.cellPcmp], by simp [Checked.cellCmp],
    fun b sa sb hab ha hsa hb hsb => ?_, fun u hua => ?_⟩
  · constructor
    · simp only [Checked.cellEq, if_neg hab]
      exact Checked.forward2_of_unborrowed eqT hab ha hsa hb hsb
    · simp only [Checked.cellCmp, if_neg hab]
      exact Checked.forward2_of_unborrowed cmpT hab ha hsa hb hsb
  · exact ⟨by simp [Unchecked.cellEq, Unchecked.borrow, hua],
      by simp [Unchecked.cellCmp, Unchecked.borrow, hua]⟩

/-- Witness for the amended C1: on one-slot heaps holding `nan`, the checked
same-slot comparison short-circuits to `true` while the unchecked same-slot
comparison evaluates `fvalEq nan nan`, which is `false`. -/
theorem c1_amended_witness :
    Checked.cellEq fvalEq [⟨1, FVal.num 3, BorrowState.Exclusive⟩] 0 0 =
      some (true, [⟨1, FVal.num 3, BorrowState.Exclusive⟩]) ∧
    Unchecked.cellEq fvalEq [⟨1, FVal.nan⟩] 0 0 = some (fvalEq FVal.nan FVal.nan) := by
  obtain ⟨hA, dB, dC, dD, dE, dF, dG, dH, dI, hB⟩ := c1_amended_shortcircuit_checked_only fvalEq
    fvalEq fvalEq fvalEq fvalEq fvalEq (fun _ _ => none) (fun _ _ => Ordering.eq)
    [⟨1, FVal.num 3, BorrowState.Exclusive⟩] [⟨1, FVal.nan⟩] 0
  exact ⟨hA, (hB ⟨1, FVal.nan⟩ (by decide)).1⟩


/-- The simulation map commutes with updating a slot. -/
theorem toUncheckedSet {T : Type} (h : CheckedHeap T) (p : Ptr) (s : Slot T) :
    toUnchecked (h.set p s) = (toUnchecked h).set p ⟨s.refs, s.value⟩ := by
  simp [toUnchecked, List.map_set]

/-- Counterexample to C2: the two strategies are NOT observationally equivalent
for all value types T, even when the caller holds no views at all.  Take the
float-like type whose equality is not reflexive (`nan`, as Rust's `PartialEq`
permits): on corresponding quiescent one-slot heaps, comparing a handle with
itself yields `true` under the checked strategy (pointer short-circuit,
checked.rs line 76) but `false` under the unchecked strategy, which has no
short-circuit and evaluates `nan == nan` (unchecked.rs line 44). -/
theorem c2_counterexample :
    Quiescent [⟨1, FVal.nan, BorrowState.Unborrowed⟩] ∧
    toUnchecked [⟨1, FVal.nan, BorrowState.Unborrowed⟩] = [⟨1, FVal.nan⟩] ∧
    (Checked.cellEq fvalEq [⟨1, FVal.nan, BorrowState.Unborrowed⟩] 0 0).map Prod.fst =
      some true ∧
    Unchecked.cellEq fvalEq (toUnchecked [⟨1, FVal.nan, BorrowState.Unborrowed⟩]) 0 0 =
      some false := by
  refine ⟨by decide, by decide, ?_, by decide⟩
  simp [Checked.cellEq]

/-- C2 as amended: under the aliasing discipline (no outstanding views — a
quiescent heap) and for value types whose comparison operations satisfy the
reflexivity laws that Rust's derived/lawful implementations satisfy
(`v == v`, `v <= v`, `v >= v` hold, `v != v`, `v < v`, `v > v` do not,
`partial_cmp(v, v) = Some(Equal)`, `cmp(v, v) = Equal`), every public
operation of the unchecked strategy — construction, clone, read view, write
view, the eight forwarded comparison methods on live handles, hashing,
formatting — produces the same observable result as the checked strategy on
the corresponding heap, and the checked strategy's heap stays in
correspondence (comparisons restore it exactly). -/
theorem c2_amended_equiv_under_discipline {T : Type}
    (eqT neT ltT leT gtT geT : T → T → Bool) (pcmpT : T → T → Option Ordering)
    (cmpT : T → T → Ordering) (hashT : T → Nat → Nat) (fmtT : T → Option String)
    (ch : CheckedHeap T) (hq : Quiescent ch)
    (hrEq : ∀ v, eqT v v = true) (hrNe : ∀ v, neT v v = false)
    (hrLt : ∀ v, ltT v v = false) (hrLe : ∀ v, leT v v = true)
    (hrGt : ∀ v, gtT v v = false) (hrGe : ∀ v, geT v v = true)
    (hrPcmp : ∀ v, pcmpT v v = some Ordering.eq)
    (hrCmp : ∀ v, cmpT v v = Ordering.eq) :
    (∀ v, toUnchecked (Checked.new ch v).1 = (Unchecked.new (toUnchecked ch) v).1 ∧
      (Checked.new ch v).2 = (Unchecked.new (toUnchecked ch) v).2 ∧
      Quiescent (Checked.new ch v).1) ∧
    (∀ p, (Checked.clone ch p).map (fun r => (toUnchecked r.1, r.2)) =
      Unchecked.clone (toUnchecked ch) p) ∧
    (∀ p, (Checked.readView ch p).map Prod.fst = Unchecked.borrow (toUnchecked ch) p ∧
      (Checked.readView ch p).map Prod.snd =
        (Unchecked.borrow (toUnchecked ch) p).map (fun _ => ch)) ∧
    (∀ p t, (Checked.writeView ch p t).map toUnchecked =
      Unchecked.borrowMutSet (toUnchecked ch) p t) ∧
    (∀ a b, a < ch.length → b < ch.length →
      ((Checked.cellEq eqT ch a b).map Prod.fst = Unchecked.cellEq eqT (toUnchecked ch) a b ∧
        (Checked.cellEq eqT ch a b).map Prod.snd = some ch) ∧
      ((Checked.cellNe neT ch a b).map Prod.fst = Unchecked.cellNe neT (toUnchecked ch) a b ∧
        (Checked.cellNe neT ch a b).map Prod.snd = some ch) ∧
      ((Checked.cellLt ltT ch a b).map Prod.fst = Unchecked.cellLt ltT (toUnchecked ch) a b ∧
        (Checked.cellLt ltT ch a b).map Prod.snd = some ch) ∧
      ((Checked.cellLe leT ch a b).map Prod.fst = Unchecked.cellLe leT (toUnchecked ch) a b ∧
        (Checked.cellLe leT ch a b).map Prod.snd = some ch) ∧
      ((Checked.cellGt gtT ch a b).map Prod.fst = Unchecked.cellGt gtT (toUnchecked ch) a b ∧
        (Checked.cellGt gtT ch a b).map Prod.snd = some ch) ∧
      ((Checked.cellGe geT ch a b).map Prod.fst = Unchecked.cellGe geT (toUnchecked ch) a b ∧
        (Checked.cellGe geT ch a b).map Prod.snd = some ch) ∧
      ((Checked.cellPcmp pcmpT ch a b).map Prod.fst =
          Unchecked.cellPcmp pcmpT (toUnchecked ch) a b ∧
        (Checked.cellPcmp pcmpT ch a b).map Prod.snd = some ch) ∧
      ((Checked.cellCmp cmpT ch a b).map Prod.fst = Unchecked.cellCmp cmpT (toUnchecked ch) a b ∧
        (Checked.cellCmp cmpT ch a b).map Prod.snd = some ch)) ∧
    (∀ p st, (Checked.cellHash hashT ch p st).map Prod.fst =
      Unchecked.cellHash hashT (toUnchecked ch) p st) ∧
    (∀ p, (Checked.cellFmt fmtT ch p).map Prod.fst = Unchecked.cellFmt fmtT (toUnchecked ch) p) := by
  refine ⟨fun v => ?_, fun p => ?_, fun p => ?_, fun p t => ?_,
    fun a b hla hlb => ?_, fun p st => ?_, fun p => ?_⟩
  · refine ⟨by simp [Checked.new, Unchecked.new, toUnchecked], by
      simp [Checked.new, Unchecked.new, toUnchecked], ?_⟩
    intro s hs
    rcases List.mem_append.mp hs with h1 | h2
    · exact hq s h1
    · simp only [List.mem_singleton] at h2
      subst h2
      rfl
  · cases hp : ch[p]? with
    | none =>
      have hpu : (toUnchecked ch)[p]? = none := by rw [toUncheckedGet, hp]; rfl
      simp [Checked.clone, Unchecked.clone, hp, hpu]
    | some s =>
      have hpu : (toUnchecked ch)[p]? = some ⟨s.refs, s.value⟩ := by
        rw [toUncheckedGet, hp]; rfl
      simp [Checked.clone, Unchecked.clone, hp, hpu, toUncheckedSet]
  · cases hp : ch[p]? with
    | none =>
      have hrv : Checked.readView ch p = none := by
        simp [Checked.readView, Checked.acquireRead, hp]
      have hpu : (toUnchecked ch)[p]? = none := by rw [toUncheckedGet, hp]; rfl
      exact ⟨by simp [hrv, Unchecked.borrow, hpu], by simp [hrv, Unchecked.borrow, hpu]⟩
    | some s =>
      have hrv := Checked.readView_of_unborrowed hp (quiescentGet hq hp)
      have hpu : (toUnchecked ch)[p]? = some ⟨s.refs, s.value⟩ := by
        rw [toUncheckedGet, hp]; rfl
      exact ⟨by simp [hrv, Unchecked.borrow, hpu], by simp [hrv, Unchecked.borrow, hpu]⟩
  · cases hp : ch[p]? with
    | none =>
      have hwv : Checked.writeView ch p t = none := by
        simp [Checked.writeView, Checked.acquireWrite, hp]
      have hpu : (toUnchecked ch)[p]? = none := by rw [toUncheckedGet, hp]; rfl
      simp [hwv, Unchecked.borrowMutSet, hpu]
    | some s =>
      have hwv := Checked.writeView_of_unborrowed hp (quiescentGet hq hp) (t := t)
      have hpu : (toUnchecked ch)[p]? = some ⟨s.refs, s.value⟩ := by
        rw [toUncheckedGet, hp]; rfl
      simp [hwv, Unchecked.borrowMutSet, hpu, toUncheckedSet]
  · obtain ⟨sa, hpa⟩ : ∃ s, ch[a]? = some s := ⟨ch[a], List.getElem?_eq_getElem hla⟩
    obtain ⟨sb, hpb⟩ : ∃ s, ch[b]? = some s := ⟨ch[b], List.getElem?_eq_getElem hlb⟩
    have hsa := quiescentGet hq hpa
    have hsb := quiescentGet hq hpb
    have hua : (toUnchecked ch)[a]? = some ⟨sa.refs, sa.value⟩ := by
      rw [toUncheckedGet, hpa]; rfl
    have hub : (toUnchecked ch)[b]? = some ⟨sb.refs, sb.value⟩ := by
      simp [toUncheckedGet, hpb]
    refine ⟨?hEq, ?hNe, ?hLt, ?hLe, ?hGt, ?hGe, ?hPc, ?hCm⟩
    · by_cases hab : a = b
      · subst hab
        exact ⟨by simp [Checked.cellEq, Unchecked.cellEq, Unchecked.borrow, hua, hrEq],
          by simp [Checked.cellEq]⟩
      · have ec : Checked.cellEq eqT ch a b = some (eqT sa.value sb.value, ch) := by
          simp only [Checked.cellEq, if_neg hab]
          exact Checked.forward2_of_unborrowed eqT hab hpa hsa hpb hsb
        exact ⟨by simp [ec, Unchecked.cellEq, Unchecked.borrow, hua, hub], by simp [ec]⟩
    · by_cases hab : a = b
      · subst hab
        exact ⟨by simp [Checked.cellNe, Unchecked.cellNe, Unchecked.borrow, hua, hrNe],
          by simp [Checked.cellNe]⟩
      · have ec : Checked.cellNe neT ch a b = some (neT sa.value sb.value, ch) := by
          simp only [Checked.cellNe, if_neg hab]
          exact Checked.forward2_of_unborrowed neT hab hpa hsa hpb hsb
        exact ⟨by simp [ec, Unchecked.cellNe, Unchecked.borrow, hua, hub], by simp [ec]⟩
    · by_cases hab : a = b
      · subst hab
        exact ⟨by simp [Checked.cellLt, Unchecked.cellLt, Unchecked.borrow, hua, hrLt],
          by simp [Checked.cellLt]⟩
      · have ec : Checked.cellLt ltT ch a b = some (ltT sa.value sb.value, ch) := by
          simp only [Checked.cellLt, if_neg hab]
          exact Checked.forward2_of_unborrowed ltT hab hpa hsa hpb hsb
        exact ⟨by simp [ec, Unchecked.cellLt, Unchecked.borrow, hua, hub], by simp [ec]⟩
    · by_cases hab : a = b
      · subst hab
        exact ⟨by simp [Checked.cellLe, Unchecked.cellLe, Unchecked.borrow, hua, hrLe],
          by simp [Checked.cellLe]⟩
      · have ec : Checked.cellLe leT ch a b = some (leT sa.value sb.value, ch) := by
          simp only [Checked.cellLe, if_neg hab]
          exact Checked.forward2_of_unborrowed leT hab hpa hsa hpb hsb
        exact ⟨by simp [ec, Unchecked.cellLe, Unchecked.borrow, hua, hub], by simp [ec]⟩
    · by_cases hab : a = b
      · subst hab
        exact ⟨by simp [Checked.cellGt, Unchecked.cellGt, Unchecked.borrow, hua, hrGt],
          by simp [Checked.cellGt]⟩
      · have ec : Checked.cellGt gtT ch a b = some (gtT sa.value sb.value, ch) := by
          simp only [Checked.cellGt, if_neg hab]
          exact Checked.forward2_of_unborrowed gtT hab hpa hsa hpb hsb
        exact ⟨by simp [ec, Unchecked.cellGt, Unchecked.borrow, hua, hub], by simp [ec]⟩
    · by_cases hab : a = b
      · subst hab
        exact ⟨by simp [Checked.cellGe, Unchecked.cellGe, Unchecked.borrow, hua, hrGe],
          by simp [Checked.cellGe]⟩
      · have ec : Checked.cellGe geT ch a b = some (geT sa.value sb.value, ch) := by
          simp only [Checked.cellGe, if_neg hab]
          exact Checked.forward2_of_unborrowed geT hab hpa hsa hpb hsb
        exact ⟨by simp [ec, Unchecked.cellGe, Unchecked.borrow, hua, hub], by simp [ec]⟩
    · by_cases hab : a = b
      · subst hab
        exact ⟨by simp [Checked.cellPcmp, Unchecked.cellPcmp, Unchecked.borrow, hua, hrPcmp],
          by simp [Checked.cellPcmp]⟩
      · have ec : Checked.cellPcmp pcmpT ch a b = some (pcmpT sa.value sb.value, ch) := by
          simp only [Checked.cellPcmp, if_neg hab]
          exact Checked.forward2_of_unborrowed pcmpT hab hpa hsa hpb hsb
        exact ⟨by simp [ec, Unchecked.cellPcmp, Unchecked.borrow, hua, hub], by simp [ec]⟩
    · by_cases hab : a = b
      · subst hab
        exact ⟨by simp [Checked.cellCmp, Unchecked.cellCmp, Unchecked.borrow, hua, hrCmp],
          by simp [Checked.cellCmp]⟩
      · have ec : Checked.cellCmp cmpT ch a b = some (cmpT sa.value sb.value, ch) := by
          simp only [Checked.cellCmp, if_neg hab]
          exact Checked.forward2_of_unborrowed cmpT hab hpa hsa hpb hsb
        exact ⟨by simp [ec, Unchecked.cellCmp, Unchecked.borrow, hua, hub], by simp [ec]⟩
  · cases hp : ch[p]? with
    | none =>
      have hrv : Checked.readView ch p = none := by
        simp [Checked.readView, Checked.acquireRead, hp]
      have hpu : (toUnchecked ch)[p]? = none := by rw [toUncheckedGet, hp]; rfl
      simp [Checked.cellHash, hrv, Unchecked.cellHash, Unchecked.borrow, hpu]
    | some s =>
      have hrv := Checked.readView_of_unborrowed hp (quiescentGet hq hp)
      have hpu : (toUnchecked ch)[p]? = some ⟨s.refs, s.value⟩ := by
        rw [toUncheckedGet, hp]; rfl
      simp [Checked.cellHash, hrv, Unchecked.cellHash, Unchecked.borrow, hpu]
  · cases hp : ch[p]? with
    | none =>
      have hrv : Checked.readView ch p = none := by
        simp [Checked.readView, Checked.acquireRead, hp]
      have hpu : (toUnchecked ch)[p]? = none := by rw [toUncheckedGet, hp]; rfl
      simp [Checked.cellFmt, hrv, Unchecked.cellFmt, Unchecked.borrow, hpu]
    | some s =>
      have hrv := Checked.readView_of_unborrowed hp (quiescentGet hq hp)
      have hpu : (toUnchecked ch)[p]? = some ⟨s.refs, s.value⟩ := by
        rw [toUncheckedGet, hp]; rfl
      simp [Checked.cellFmt, hrv, Unchecked.cellFmt, Unchecked.borrow, hpu]


/-- Witness for the amended C2 on a quiescent one-slot heap holding 5, with
lawful (constant-reflexive) comparison operations: construction of 9
corresponds under the simulation map, and same-slot equality agrees between
the strategies. -/
theorem c2_amended_witness :
    toUnchecked (Checked.new [(⟨1, 5, BorrowState.Unborrowed⟩ : Slot Nat)] 9).1 =
      (Unchecked.new (toUnchecked [(⟨1, 5, BorrowState.Unborrowed⟩ : Slot Nat)]) 9).1 ∧
    (Checked.cellEq (fun _ _ => true) [(⟨1, 5, BorrowState.Unborrowed⟩ : Slot Nat)] 0 0).map
        Prod.fst =
      Unchecked.cellEq (fun _ _ => true)
        (toUnchecked [(⟨1, 5, BorrowState.Unborrowed⟩ : Slot Nat)]) 0 0 := by
  have hc : ∀ {α : Type} (c : α) (v : Nat), (fun (_ _ : Nat) => c) v v = c :=
    fun _ _ => rfl
  have main := c2_amended_equiv_under_discipline (fun _ _ => true) (fun _ _ => false)
    (fun _ _ => false) (fun _ _ => true) (fun _ _ => false) (fun _ _ => true)
    (fun _ _ => some Ordering.eq) (fun _ _ => Ordering.eq) (fun v st => v + st)
    (fun _ => none) [⟨1, 5, BorrowState.Unborrowed⟩] (by decide)
    (hc true) (hc false) (hc false) (hc true) (hc false) (hc true)
    (hc (some Ordering.eq)) (hc Ordering.eq)
  obtain ⟨hNew, gB, gC, gD, hOps, gF, gG⟩ := main
  exact ⟨(hNew 9).1, (hOps 0 0 (by decide) (by decide)).1.1⟩

/-- Visibility of one API item, as written in the source: `isPub` records
whether the declaration carries the `pub` qualifier (trait impls are always
public in Rust). -/
structure ApiItem where
  name : String
  isPub : Bool
  deriving DecidableEq, Repr

/-- Construction and view-accessor surface of the checked build, transcribed
from the source: checked.rs declares `pub fn new` (line 21), `pub fn borrow`
(line 28) and `pub fn borrow_mut` (line 33); the `Clone` impl (lines 38-43)
and the `From<T>` impl (lib.rs lines 114-119) are trait impls, hence
public. -/
def checkedApi : List ApiItem :=
  [⟨"new", true⟩, ⟨"borrow", true⟩, ⟨"borrow_mut", true⟩, ⟨"clone", true⟩, ⟨"from", true⟩]

/-- The same surface of the unchecked build, transcribed from the source:
unchecked.rs declares `fn new` (line 19), `fn borrow` (line 25) and
`fn borrow_mut` (line 29) with no `pub` qualifier, so they are private to
their module; the `Clone` impl (lines 34-38) and the `From<T>` impl (lines
118-122) are trait impls, hence public. -/
def uncheckedApi : List ApiItem :=
  [⟨"new", false⟩, ⟨"borrow", false⟩, ⟨"borrow_mut", false⟩, ⟨"clone", true⟩, ⟨"from", true⟩]

/-- Names of the publicly exported items of an API surface. -/
def publicNames (api : List ApiItem) : List String :=
  (api.filter ApiItem.isPub).map ApiItem.name

/-- C10: under the unchecked strategy `new`, `borrow` and `borrow_mut` are
declared without `pub` and are therefore absent from the public interface;
construction is publicly reachable only through the `From<T>` conversion, no
read- or write-view accessor is exported at all, and consequently the two
builds do not export the same set of public operations. -/
theorem c10_unchecked_visibility :
    publicNames uncheckedApi = ["clone", "from"] ∧
    publicNames checkedApi = ["new", "borrow", "borrow_mut", "clone", "from"] ∧
    "new" ∉ publicNames uncheckedApi ∧
    "borrow" ∉ publicNames uncheckedApi ∧
    "borrow_mut" ∉ publicNames uncheckedApi ∧
    "from" ∈ publicNames uncheckedApi ∧
    publicNames checkedApi ≠ publicNames uncheckedApi := by
  decide

